import Mathlib

/-!
Verification of the physical-property derivation engine of the StarRocks
cost-based optimizer (`ChildPropertyDeriver.java`).

The engine is embedded shallowly: each `visitPhysical*` method of the Java
visitor becomes a pure Lean function from the required physical property,
the plan-view/metadata environment and the operator's data to the list of
alternatives `(outputProperty, childRequiredProperties)`.  The two
`Preconditions.checkState` assertions of the join rule are modelled by an
`Except` error result so that a fatal invariant violation is distinguished
from a normal (possibly empty) alternatives list.

The supporting property-model classes (`DistributionSpec`,
`PhysicalPropertySet`, `HashDistributionDesc`, `ColumnRefSet`,
`JoinPredicateUtils`) are not part of the provided sources; they are
modelled from the specification where noted.
-/

namespace StarRocks

/-- Source kind of a hash distribution (`HashDistributionDesc.SourceType`).
Modelled from the spec: tagged kind `{ShuffleJoin, ShuffleAgg, Local}`. -/
inductive SourceType where
  | shuffleJoin
  | shuffleAgg
  | localSrc
deriving DecidableEq, Repr

/-- Hash distribution descriptor (`HashDistributionDesc`): an ordered,
order-significant list of column ids plus the source kind.
Modelled from the spec. -/
structure HashDistributionDesc where
  columns : List Nat
  sourceType : SourceType
deriving DecidableEq, Repr

/-- Distribution specification (`DistributionSpec`): tagged variant
`Any / Gather[limit?] / Replicated / Hash(desc)`.  Modelled from the spec. -/
inductive DistributionSpec where
  | anyDist
  | gather (limit : Option Nat)
  | replicated
  | hashDist (desc : HashDistributionDesc)
deriving DecidableEq, Repr

/-- Predicate `isAny` of the property model. -/
def DistributionSpec.isAny : DistributionSpec → Bool
  | .anyDist => true
  | _ => false

/-- Predicate `isGather` of the property model. -/
def DistributionSpec.isGather : DistributionSpec → Bool
  | .gather _ => true
  | _ => false

/-- Predicate `isReplicated` of the property model. -/
def DistributionSpec.isReplicated : DistributionSpec → Bool
  | .replicated => true
  | _ => false

/-- Predicate `isShuffle` of the property model: true for any `Hash` variant.
Modelled from the spec. -/
def DistributionSpec.isShuffle : DistributionSpec → Bool
  | .hashDist _ => true
  | _ => false

/-- One element of a sort order (`Ordering`): column id, ascending flag,
nulls-first flag.  Modelled from the spec. -/
structure Ordering where
  colRef : Nat
  isAsc : Bool
  nullsFirst : Bool
deriving DecidableEq, Repr

/-- Physical property set (`PhysicalPropertySet`): a distribution paired with
a sort order (the `SortProperty`/`OrderSpec` wrappers are collapsed to the
underlying ordering list).  Modelled from the spec. -/
structure PhysicalPropertySet where
  dist : DistributionSpec
  sort : List Ordering
deriving DecidableEq, Repr

/-- The `PhysicalPropertySet.EMPTY` sentinel: `Any` distribution, no sort.
`new PhysicalPropertySet()` builds the same value. -/
def PhysicalPropertySet.empty : PhysicalPropertySet :=
  { dist := .anyDist, sort := [] }

/-- One alternative returned by the engine: the output property together with
the ordered list of child required properties (a
`Pair<PhysicalPropertySet, List<PhysicalPropertySet>>` in the source). -/
abbrev Alternative := PhysicalPropertySet × List PhysicalPropertySet

/-- Column-set containment: `containsAll big small` is true iff every column
id of `small` is present in `big`.  This models both
`ColumnRefSet.contains(ColumnRefSet)` and `List.containsAll` of the Java
property model. -/
def containsAll (big small : List Nat) : Bool :=
  small.all (fun x => big.contains x)

/-- Plan-view of one base-table scan (`LogicalOlapScanOperator` /
`PhysicalOlapScanOperator` as used by the deriver): table id, output column
ids, the table's native bucket columns (the shuffle columns of its intrinsic
hash distribution) and the selected partition ids. -/
structure ScanOperator where
  tableId : Nat
  outputColumns : List Nat
  bucketColumns : List Nat
  selectedPartitionIds : List Nat
deriving DecidableEq, Repr

/-- Read-only context of one derivation call: session/config flags, the scan
operators reachable in the current subtree (`taskContext.getAllScanOperators`)
and the cluster colocation metadata (`ColocateTableIndex`). -/
structure Env where
  configDisableColocateJoin : Bool
  sessionDisableColocateJoin : Bool
  newPlannerAggStage : Nat
  allScanOperators : List ScanOperator
  isSameGroup : Nat → Nat → Bool
  getGroup : Nat → Nat
  isGroupUnstable : Nat → Bool
  isColocateTable : Nat → Bool

/-- Join type (`JoinOperator`). -/
inductive JoinType where
  | innerJoin
  | crossJoin
  | leftOuterJoin
  | rightOuterJoin
  | fullOuterJoin
  | leftSemiJoin
  | rightSemiJoin
  | leftAntiJoin
  | rightAntiJoin
  | nullAwareLeftAntiJoin
deriving DecidableEq, Repr

/-- Predicate `JoinOperator.isCrossJoin`. -/
def JoinType.isCrossJoin : JoinType → Bool
  | .crossJoin => true
  | _ => false

/-- Predicate `JoinOperator.isInnerJoin`. -/
def JoinType.isInnerJoin : JoinType → Bool
  | .innerJoin => true
  | _ => false

/-- Predicate `JoinOperator.isRightJoin`.  Modelled from the spec: true for
the right outer/semi/anti variants (the joins whose unmatched right rows
forbid a broadcast build side). -/
def JoinType.isRightJoin : JoinType → Bool
  | .rightOuterJoin => true
  | .rightSemiJoin => true
  | .rightAntiJoin => true
  | _ => false

/-- Predicate `JoinOperator.isFullOuterJoin`. -/
def JoinType.isFullOuterJoin : JoinType → Bool
  | .fullOuterJoin => true
  | _ => false

/-- Join hint string of the node; the source compares it case-insensitively
against BROADCAST, SHUFFLE and BUCKET, so only those three values and
`noHint` (any other string) are distinguished. -/
inductive JoinHint where
  | noHint
  | broadcastHint
  | shuffleHint
  | bucketHint
deriving DecidableEq, Repr

/-- One equality conjunct between the two join sides.  Modelled from the
spec: `JoinPredicateUtils.getEqConj` / `getJoinOnPredicatesColumns` are not
part of the provided sources; each extracted conjunct pairs one left-side
column with one right-side column by predicate position, and
`columnToColumn` records `isColumnToColumnBinaryPredicate`. -/
structure EqPredicate where
  leftCol : Nat
  rightCol : Nat
  columnToColumn : Bool
deriving DecidableEq, Repr

/-- Input of the hash-join rule: the join node together with the plan-view
facts the rule reads (child limits, child output column sets, the extracted
equality conjuncts). -/
structure JoinInput where
  joinType : JoinType
  hint : JoinHint
  leftLimit : Option Nat
  rightLimit : Option Nat
  leftOutputColumns : List Nat
  rightOutputColumns : List Nat
  eqOnPredicates : List EqPredicate
deriving Repr

/-- Fatal `Preconditions.checkState` failures of the join rule. -/
inductive DerivError where
  | shuffleColumnsMismatch
  | colocateBucketMismatch
deriving DecidableEq, Repr

/-- The private helper `distributeRequirements`: a fresh property set keeping
only the distribution component of the requirement (the sort is dropped). -/
def distributeRequirements (requirements : PhysicalPropertySet) : PhysicalPropertySet :=
  { dist := requirements.dist, sort := [] }

/-- The private helper `createLimitGatherProperty`. -/
def createLimitGatherProperty (limit : Nat) : PhysicalPropertySet :=
  { dist := .gather (some limit), sort := [] }

/-- The private helper `createPropertySetByDistribution`. -/
def createPropertySetByDistribution (d : DistributionSpec) : PhysicalPropertySet :=
  { dist := d, sort := [] }

/-- The private helper `createLocalByByHashColumns`. -/
def createLocalByByHashColumns (hashColumns : List Nat) : DistributionSpec :=
  .hashDist { columns := hashColumns, sourceType := .localSrc }

/-- The private helper `getRequiredLocalDesc`: the required distribution must
be a `Hash` (`isShuffle`) whose source kind is `LOCAL`. -/
def getRequiredLocalDesc (requirements : PhysicalPropertySet) : Option HashDistributionDesc :=
  match requirements.dist with
  | .hashDist d => if d.sourceType = .localSrc then some d else none
  | _ => none

/-- The private helper `findLogicalOlapScanOperator`: the first scan operator
of the subtree whose output columns contain all the shuffle columns. -/
def findLogicalOlapScanOperator (env : Env) (shuffleColumns : List Nat) : Option ScanOperator :=
  env.allScanOperators.find? (fun s => containsAll s.outputColumns shuffleColumns)

/-- Position check of `tryColocate`: for each index into the two scans'
bucket-column lists, the position of the bucket column inside the shuffle
(predicate) column list must agree between the two sides.  The two scan
lists have equal length when this runs (guarded by the `checkState`). -/
def colocateShuffleIndexesMatch (leftScanCols rightScanCols leftShuffleCols rightShuffleCols : List Nat) : Bool :=
  (leftScanCols.zip rightScanCols).all
    (fun p => leftShuffleCols.indexOf p.1 == rightShuffleCols.indexOf p.2)

/-- The private method `tryColocate`.  Returns the colocate alternative when
one is legal, `none` when the alternative is simply not offered, and a
`colocateBucketMismatch` error for the `Preconditions.checkState` comparing
the two scans' bucket-column counts. -/
def tryColocate (env : Env) (leftShuffleCols rightShuffleCols : List Nat) :
    Except DerivError (Option Alternative) :=
  if env.configDisableColocateJoin || env.sessionDisableColocateJoin then
    .ok none
  else
    match findLogicalOlapScanOperator env leftShuffleCols with
    | none => .ok none
    | some left =>
      match findLogicalOlapScanOperator env rightShuffleCols with
      | none => .ok none
      | some right =>
        if left.tableId = right.tableId ∧ ¬ (env.isSameGroup left.tableId right.tableId = true) then
          -- join self
          if left.selectedPartitionIds ≠ right.selectedPartitionIds ∨ left.selectedPartitionIds.length > 1 then
            .ok none
          else
            .ok (some (PhysicalPropertySet.empty,
              [createPropertySetByDistribution (createLocalByByHashColumns leftShuffleCols),
               createPropertySetByDistribution (createLocalByByHashColumns rightShuffleCols)]))
        else
          -- colocate group
          if ¬ (env.isSameGroup left.tableId right.tableId = true) then
            .ok none
          else if env.isGroupUnstable (env.getGroup left.tableId) = true then
            .ok none
          else if left.bucketColumns.length ≠ right.bucketColumns.length then
            .error .colocateBucketMismatch
          else if ¬ (containsAll leftShuffleCols left.bucketColumns = true) then
            .ok none
          else if ¬ (containsAll rightShuffleCols right.bucketColumns = true) then
            .ok none
          else if ¬ (colocateShuffleIndexesMatch left.bucketColumns right.bucketColumns
                      leftShuffleCols rightShuffleCols = true) then
            .ok none
          else
            .ok (some (PhysicalPropertySet.empty,
              [createPropertySetByDistribution (createLocalByByHashColumns left.bucketColumns),
               createPropertySetByDistribution (createLocalByByHashColumns right.bucketColumns)]))

/-- The private method `tryBucketShuffle`.  Returns the bucket-shuffle
alternative when one is legal.  The `getD _ 0` lookup models
`rightShuffleDistribution.getShuffleColumns().get(index)`; the index is in
range on every reachable call because the bucket column is a member of the
left shuffle-column list and the two shuffle-column lists have equal
length. -/
def tryBucketShuffle (env : Env) (joinType : JoinType)
    (leftShuffleCols rightShuffleCols : List Nat) : Option Alternative :=
  if joinType.isCrossJoin then
    none
  else
    match findLogicalOlapScanOperator env leftShuffleCols with
    | none => none
    | some left =>
      if left.selectedPartitionIds.length ≠ 1 then
        none
      else if ¬ (containsAll leftShuffleCols left.bucketColumns = true) then
        none
      else
        let rightBucketShuffleColumns :=
          left.bucketColumns.map (fun c => rightShuffleCols.getD (leftShuffleCols.indexOf c) 0)
        let leftLocalColumns := left.bucketColumns
        some (PhysicalPropertySet.empty,
          [createPropertySetByDistribution (createLocalByByHashColumns leftLocalColumns),
           createPropertySetByDistribution
             (.hashDist { columns := rightBucketShuffleColumns, sourceType := .shuffleJoin })])

/-- Body of the left-qualifying loop of `visitJoinRequirements`: an
alternative survives when its left child input is `Any` (promoted to the
exact requirement) or a `Hash(LOCAL)` whose columns are all contained in the
required local columns. -/
def joinLocalFilterLeft (requirements : PhysicalPropertySet)
    (requireDesc : HashDistributionDesc) (alt : Alternative) : Option Alternative :=
  if (alt.2.getD 0 PhysicalPropertySet.empty).dist.isAny then
    some (distributeRequirements requirements,
      [distributeRequirements requirements, alt.2.getD 1 PhysicalPropertySet.empty])
  else
    match (alt.2.getD 0 PhysicalPropertySet.empty).dist with
    | .hashDist d =>
      if d.sourceType = .localSrc ∧ containsAll requireDesc.columns d.columns = true then
        some (distributeRequirements requirements, alt.2)
      else none
    | _ => none

/-- Body of the right-qualifying loop of `visitJoinRequirements`: only a
`Hash(LOCAL)` right child whose columns are all contained in the required
local columns survives (there is no `Any` case on this side). -/
def joinLocalFilterRight (requirements : PhysicalPropertySet)
    (requireDesc : HashDistributionDesc) (alt : Alternative) : Option Alternative :=
  match (alt.2.getD 1 PhysicalPropertySet.empty).dist with
  | .hashDist d =>
    if d.sourceType = .localSrc ∧ containsAll requireDesc.columns d.columns = true then
      some (distributeRequirements requirements, alt.2)
    else none
  | _ => none

/-- The private method `visitJoinRequirements`: the final local-requirement
filtering step of the join rule, applied to the accumulated alternatives. -/
def visitJoinRequirements (requirements : PhysicalPropertySet)
    (leftChildColumns rightChildColumns : List Nat)
    (props : List Alternative) : List Alternative :=
  match getRequiredLocalDesc requirements with
  | none => props
  | some requireDesc =>
    if containsAll leftChildColumns requireDesc.columns
        = containsAll rightChildColumns requireDesc.columns then
      []
    else if containsAll leftChildColumns requireDesc.columns then
      props.filterMap (joinLocalFilterLeft requirements requireDesc)
    else
      props.filterMap (joinLocalFilterRight requirements requireDesc)

/-- The broadcast alternative of the join rule: left child `Any`, right
child `Replicated` (`rightBroadcastProperty` in the source). -/
def broadcastAlt : Alternative :=
  (PhysicalPropertySet.empty,
    [PhysicalPropertySet.empty, createPropertySetByDistribution .replicated])

/-- The local variable `leftOnPredicateColumns` of `visitPhysicalHashJoin`:
the left-side column of each equality conjunct, in predicate order
(`JoinPredicateUtils.getJoinOnPredicatesColumns` pushes one column per
predicate into each side's list; modelled from the spec). -/
def leftOnPredicateColumns (node : JoinInput) : List Nat :=
  node.eqOnPredicates.map (fun p => p.leftCol)

/-- The local variable `rightOnPredicateColumns` of `visitPhysicalHashJoin`. -/
def rightOnPredicateColumns (node : JoinInput) : List Nat :=
  node.eqOnPredicates.map (fun p => p.rightCol)

/-- The shuffle alternative of the join rule: `Hash(SHUFFLE_JOIN)` on both
children with the positionally paired predicate columns. -/
def shuffleJoinAlt (node : JoinInput) : Alternative :=
  (PhysicalPropertySet.empty,
    [createPropertySetByDistribution
       (.hashDist { columns := leftOnPredicateColumns node, sourceType := .shuffleJoin }),
     createPropertySetByDistribution
       (.hashDist { columns := rightOnPredicateColumns node, sourceType := .shuffleJoin })])

/-- Alternatives accumulated after the shuffle step: the broadcast
alternative is discarded for right joins, full-outer joins and an explicit
shuffle hint, then the shuffle alternative is appended. -/
def joinShuffleProps (node : JoinInput) : List Alternative :=
  (if node.joinType.isRightJoin || node.joinType.isFullOuterJoin
      || node.hint = .shuffleHint then
    ([] : List Alternative)
  else
    [broadcastAlt]) ++ [shuffleJoinAlt node]

/-- Steps 2-4 of `visitPhysicalHashJoin` (shuffle, colocate, bucket
shuffle), entered once the broadcast-only short circuits did not fire and
the `checkState` on the paired predicate-column counts passed. -/
def joinShufflePhase (env : Env) (node : JoinInput) : Except DerivError (List Alternative) :=
  if node.hint = .shuffleHint then
    -- Respect use join hint
    .ok (joinShuffleProps node)
  else if node.eqOnPredicates.any (fun p => !p.columnToColumn) then
    -- Colocate join and bucket shuffle join only support column to column predicates
    .ok (joinShuffleProps node)
  else
    match (if node.hint = .bucketHint then Except.ok none
           else tryColocate env (leftOnPredicateColumns node) (rightOnPredicateColumns node)) with
    | .error e => .error e
    | .ok coloAlt =>
      .ok (joinShuffleProps node ++ coloAlt.toList ++
        (tryBucketShuffle env node.joinType
          (leftOnPredicateColumns node) (rightOnPredicateColumns node)).toList)

/-- Alternatives accumulated by `visitPhysicalHashJoin` before the final
local-requirement filtering (the visitor threads a single mutable
accumulator through the phases; here the accumulation is factored out so
that the filtering is applied once to the final list, which is what every
return point of the source method does). -/
def joinBaseProps (env : Env) (node : JoinInput) : Except DerivError (List Alternative) :=
  if node.leftLimit.isSome || node.rightLimit.isSome then
    -- If child has limit, only do broadcast join
    match node.leftLimit with
    | some l => .ok [(PhysicalPropertySet.empty,
        [createLimitGatherProperty l, createPropertySetByDistribution .replicated])]
    | none => .ok [broadcastAlt]
  else if node.joinType.isCrossJoin || node.joinType = .nullAwareLeftAntiJoin
      || (node.joinType.isInnerJoin && node.eqOnPredicates.isEmpty)
      || node.hint = .broadcastHint then
    -- Cross join, null-aware left anti join, inner join without equality
    -- conjuncts and an explicit broadcast hint only support broadcast join
    .ok [broadcastAlt]
  else if (leftOnPredicateColumns node).length = (rightOnPredicateColumns node).length then
    joinShufflePhase env node
  else
    .error .shuffleColumnsMismatch

/-- The method `visitPhysicalHashJoin`: the accumulated broadcast, shuffle,
colocate and bucket-shuffle alternatives in source order, filtered by
`visitJoinRequirements`. -/
def visitPhysicalHashJoin (env : Env) (requirements : PhysicalPropertySet)
    (node : JoinInput) : Except DerivError (List Alternative) :=
  match joinBaseProps env node with
  | .error e => .error e
  | .ok props =>
    .ok (visitJoinRequirements requirements node.leftOutputColumns node.rightOutputColumns props)

/-- Input of the hash-aggregate rule: the flags of
`PhysicalHashAggregateOperator` and the plan-view facts the rule reads. -/
structure AggInput where
  typeIsGlobal : Bool
  typeIsLocal : Bool
  isSplit : Bool
  partitionByColumns : List Nat
  childLimit : Option Nat
  executeInOneInstance : Bool
deriving Repr

/-- Body of the loop of `visitAggregateRequirements`: an alternative survives
when its child input is `Any` (promoted to the exact requirement) or when
both its output and its input are `Hash(LOCAL)` with the input columns all
contained in the required local columns.  The source casts the output
distribution to `HashDistributionSpec` inside the `isShuffle` input branch;
that cast cannot fail on the lists `visitPhysicalHashAggregate` builds
(the input is a hash distribution only when the output is the same hash
distribution), and a non-hash output simply yields no survivor here. -/
def aggLocalFilter (requirements : PhysicalPropertySet)
    (requireDesc : HashDistributionDesc) (alt : Alternative) : Option Alternative :=
  if (alt.2.getD 0 PhysicalPropertySet.empty).dist.isAny then
    some (distributeRequirements requirements, [distributeRequirements requirements])
  else
    match (alt.2.getD 0 PhysicalPropertySet.empty).dist, alt.1.dist with
    | .hashDist inputDesc, .hashDist outputDesc =>
      if outputDesc.sourceType = .localSrc ∧ inputDesc.sourceType = .localSrc
          ∧ containsAll requireDesc.columns inputDesc.columns = true then
        some (distributeRequirements requirements, alt.2)
      else none
    | _, _ => none

/-- The private method `visitAggregateRequirements`: the final
local-requirement filtering step of the aggregate rule. -/
def visitAggregateRequirements (requirements : PhysicalPropertySet)
    (props : List Alternative) : List Alternative :=
  match getRequiredLocalDesc requirements with
  | none => props
  | some requireDesc => props.filterMap (aggLocalFilter requirements requireDesc)

/-- The method `visitPhysicalHashAggregate`. -/
def visitPhysicalHashAggregate (env : Env) (requirements : PhysicalPropertySet)
    (node : AggInput) : List Alternative :=
  if env.newPlannerAggStage = 0 ∧ node.executeInOneInstance = true
      ∧ node.typeIsGlobal = true ∧ node.isSplit = false then
    -- one phase local aggregate is enough
    visitAggregateRequirements requirements
      [(PhysicalPropertySet.empty, [PhysicalPropertySet.empty])]
  else if node.childLimit.isSome = true ∧ node.typeIsGlobal = true ∧ node.isSplit = false then
    -- If child has limit, we need to gather data to one instance
    visitAggregateRequirements requirements
      [(PhysicalPropertySet.empty, [createLimitGatherProperty (node.childLimit.getD 0)])]
  else if node.typeIsLocal = false then
    if node.partitionByColumns.isEmpty then
      -- None grouping columns
      let gatherProperty := createPropertySetByDistribution (.gather none)
      visitAggregateRequirements requirements [(gatherProperty, [gatherProperty])]
    else
      -- shuffle aggregation, then local aggregation
      let shuffleProperty := createPropertySetByDistribution
        (.hashDist { columns := node.partitionByColumns, sourceType := .shuffleAgg })
      let localProperty := createPropertySetByDistribution
        (.hashDist { columns := node.partitionByColumns, sourceType := .localSrc })
      visitAggregateRequirements requirements
        [(shuffleProperty, [shuffleProperty]), (localProperty, [localProperty])]
  else
    visitAggregateRequirements requirements
      [(PhysicalPropertySet.empty, [PhysicalPropertySet.empty])]

/-- The method `visitPhysicalOlapScan`.  The scan's intrinsic hash
distribution is modelled from the spec: its shuffle columns are the table's
native bucket columns and its source kind is `LOCAL` (rows are already
co-located on those columns without data movement). -/
def visitPhysicalOlapScan (env : Env) (requirements : PhysicalPropertySet)
    (node : ScanOperator) : List Alternative :=
  let hashDistributionSpec : DistributionSpec :=
    .hashDist { columns := node.bucketColumns, sourceType := .localSrc }
  let base : List Alternative :=
    if node.selectedPartitionIds.length > 1 ∧ ¬ (env.isColocateTable node.tableId = true) then
      [(PhysicalPropertySet.empty, [])]
    else
      [(createPropertySetByDistribution hashDistributionSpec, [])]
  match getRequiredLocalDesc requirements with
  | none => base
  | some requireDesc =>
    if containsAll requireDesc.columns node.bucketColumns = true then
      [(distributeRequirements requirements, [])]
    else
      []

/-- Input of the top-N rule. -/
structure TopNInput where
  sortPhaseIsFinal : Bool
  isSplit : Bool
  orderSpec : List Ordering
  childLimit : Option Nat
deriving Repr

/-- The method `visitPhysicalTopN`. -/
def visitPhysicalTopN (requirements : PhysicalPropertySet) (node : TopNInput) : List Alternative :=
  if (getRequiredLocalDesc requirements).isSome then
    []
  else
    let outputProperty : PhysicalPropertySet :=
      if node.sortPhaseIsFinal then
        if node.isSplit then
          { dist := .gather none, sort := node.orderSpec }
        else
          { dist := .anyDist, sort := node.orderSpec }
      else
        PhysicalPropertySet.empty
    if node.childLimit.isSome = true ∧ node.sortPhaseIsFinal = true ∧ node.isSplit = false then
      [(outputProperty, [createLimitGatherProperty (node.childLimit.getD 0)])]
    else
      [(outputProperty, [PhysicalPropertySet.empty])]

/-- Input of the window/analytic rule: the partition-by column ids (each
partition expression is a column reference) and the order-by elements. -/
structure WindowInput where
  partitionColumns : List Nat
  orderByElements : List Ordering
deriving Repr

/-- Combined sort order of `visitPhysicalAnalytic`: each partition column as
an ascending, nulls-first ordering, followed by every order-by element whose
column is not already present. -/
def analyticOrderings (node : WindowInput) : List Ordering :=
  let base := node.partitionColumns.map (fun c => { colRef := c, isAsc := true, nullsFirst := true : Ordering })
  node.orderByElements.foldl
    (fun acc o => if acc.all (fun x => x.colRef ≠ o.colRef) then acc ++ [o] else acc)
    base

/-- The method `visitPhysicalAnalytic`. -/
def visitPhysicalAnalytic (requirements : PhysicalPropertySet) (node : WindowInput) : List Alternative :=
  let partitionColumnRefSet := node.partitionColumns
  let sortProperty := analyticOrderings node
  match getRequiredLocalDesc requirements with
  | some requireDesc =>
    if ¬ partitionColumnRefSet.isEmpty
        ∧ containsAll requireDesc.columns partitionColumnRefSet = true then
      let localProperty : PhysicalPropertySet :=
        { dist := .hashDist { columns := partitionColumnRefSet, sourceType := .localSrc },
          sort := sortProperty }
      [(localProperty, [localProperty])]
    else
      []
  | none =>
    if partitionColumnRefSet.isEmpty then
      let gatherProperty : PhysicalPropertySet := { dist := .gather none, sort := sortProperty }
      [(gatherProperty, [gatherProperty])]
    else
      let shuffleProperty : PhysicalPropertySet :=
        { dist := .hashDist { columns := partitionColumnRefSet, sourceType := .shuffleAgg },
          sort := sortProperty }
      let localProperty : PhysicalPropertySet :=
        { dist := .hashDist { columns := partitionColumnRefSet, sourceType := .localSrc },
          sort := sortProperty }
      [(shuffleProperty, [shuffleProperty]), (localProperty, [localProperty])]

/-- The private method `processSetOperationChildProperty`: one alternative
with no output requirement; each child requires `Gather(limit)` when its
subtree carries a limit, else nothing.  Under an active local requirement the
set operator offers no alternative at all. -/
def processSetOperationChildProperty (requirements : PhysicalPropertySet)
    (childLimits : List (Option Nat)) : List Alternative :=
  if (getRequiredLocalDesc requirements).isSome then
    []
  else
    let childProperty := childLimits.map (fun
      | some l => createLimitGatherProperty l
      | none => PhysicalPropertySet.empty)
    [(PhysicalPropertySet.empty, childProperty)]

/-- The method `visitPhysicalUnion`. -/
def visitPhysicalUnion (requirements : PhysicalPropertySet)
    (childLimits : List (Option Nat)) : List Alternative :=
  processSetOperationChildProperty requirements childLimits

/-- The method `visitPhysicalExcept`. -/
def visitPhysicalExcept (requirements : PhysicalPropertySet)
    (childLimits : List (Option Nat)) : List Alternative :=
  processSetOperationChildProperty requirements childLimits

/-- The method `visitPhysicalIntersect`. -/
def visitPhysicalIntersect (requirements : PhysicalPropertySet)
    (childLimits : List (Option Nat)) : List Alternative :=
  processSetOperationChildProperty requirements childLimits

/-- The method `visitPhysicalValues`: one alternative equal to whatever
distribution was required, no children. -/
def visitPhysicalValues (requirements : PhysicalPropertySet) : List Alternative :=
  [(distributeRequirements requirements, [])]

/-- The method `visitPhysicalProject`: the pass-through alternative is always
added; the fully-unconstrained one only when no local requirement is
active. -/
def visitPhysicalProject (requirements : PhysicalPropertySet) : List Alternative :=
  let passThrough : Alternative :=
    (distributeRequirements requirements, [distributeRequirements requirements])
  if (getRequiredLocalDesc requirements).isSome then
    [passThrough]
  else
    [passThrough, (PhysicalPropertySet.empty, [PhysicalPropertySet.empty])]

/-- The method `visitPhysicalFilter`: pass-through under an active local
requirement, otherwise only the fully-unconstrained alternative. -/
def visitPhysicalFilter (requirements : PhysicalPropertySet) : List Alternative :=
  if (getRequiredLocalDesc requirements).isSome then
    [(distributeRequirements requirements, [distributeRequirements requirements])]
  else
    [(PhysicalPropertySet.empty, [PhysicalPropertySet.empty])]

/-- The method `visitPhysicalRepeat`: same shape as `visitPhysicalFilter`. -/
def visitPhysicalRepeat (requirements : PhysicalPropertySet) : List Alternative :=
  if (getRequiredLocalDesc requirements).isSome then
    [(distributeRequirements requirements, [distributeRequirements requirements])]
  else
    [(PhysicalPropertySet.empty, [PhysicalPropertySet.empty])]

/-- The method `visitPhysicalTableFunction`: same shape as
`visitPhysicalFilter`. -/
def visitPhysicalTableFunction (requirements : PhysicalPropertySet) : List Alternative :=
  if (getRequiredLocalDesc requirements).isSome then
    [(distributeRequirements requirements, [distributeRequirements requirements])]
  else
    [(PhysicalPropertySet.empty, [PhysicalPropertySet.empty])]

/-- The method `visitPhysicalAssertOneRow`: requires `Gather` from the child
when no local requirement is active, otherwise no alternative. -/
def visitPhysicalAssertOneRow (requirements : PhysicalPropertySet) : List Alternative :=
  if (getRequiredLocalDesc requirements).isSome then
    []
  else
    [(PhysicalPropertySet.empty,
      [createPropertySetByDistribution (.gather none)])]

/-- The method `visitPhysicalHiveScan`. -/
def visitPhysicalHiveScan (requirements : PhysicalPropertySet) : List Alternative :=
  if (getRequiredLocalDesc requirements).isSome then
    []
  else
    [(PhysicalPropertySet.empty, [])]

/-- The method `visitPhysicalSchemaScan`. -/
def visitPhysicalSchemaScan (requirements : PhysicalPropertySet) : List Alternative :=
  if (getRequiredLocalDesc requirements).isSome then
    []
  else
    [(PhysicalPropertySet.empty, [])]

/-- The method `visitPhysicalMysqlScan`. -/
def visitPhysicalMysqlScan (requirements : PhysicalPropertySet) : List Alternative :=
  if (getRequiredLocalDesc requirements).isSome then
    []
  else
    [(PhysicalPropertySet.empty, [])]

/-- The method `visitPhysicalEsScan`. -/
def visitPhysicalEsScan (requirements : PhysicalPropertySet) : List Alternative :=
  if (getRequiredLocalDesc requirements).isSome then
    []
  else
    [(PhysicalPropertySet.empty, [])]

/-- Kind of an n-ary set operation. -/
inductive SetOpKind where
  | unionOp
  | exceptOp
  | intersectOp
deriving DecidableEq, Repr

/-- Closed union of the physical operator kinds the deriver handles, each
paired with the operator data its rule reads. -/
inductive PhysOp where
  | hashJoin (j : JoinInput)
  | hashAggregate (a : AggInput)
  | olapScan (s : ScanOperator)
  | topN (t : TopNInput)
  | analytic (w : WindowInput)
  | setOperation (k : SetOpKind) (childLimits : List (Option Nat))
  | valuesOp
  | projectOp
  | filterOp
  | repeatOp
  | tableFunctionOp
  | assertOneRow
  | hiveScan
  | schemaScan
  | mysqlScan
  | esScan
deriving Repr

/-- Number of children of each operator kind. -/
def PhysOp.arity : PhysOp → Nat
  | .hashJoin _ => 2
  | .hashAggregate _ => 1
  | .olapScan _ => 0
  | .topN _ => 1
  | .analytic _ => 1
  | .setOperation _ childLimits => childLimits.length
  | .valuesOp => 0
  | .projectOp => 1
  | .filterOp => 1
  | .repeatOp => 1
  | .tableFunctionOp => 1
  | .assertOneRow => 1
  | .hiveScan => 0
  | .schemaScan => 0
  | .mysqlScan => 0
  | .esScan => 0

/-- True exactly for the window/analytic operator kind. -/
def PhysOp.isAnalytic : PhysOp → Bool
  | .analytic _ => true
  | _ => false

/-- The entry point `getOutputInputProps`: dispatch on the operator kind
(the visitor's double dispatch), returning the ordered alternatives list or
a fatal invariant failure. -/
def getOutputInputProps (env : Env) (requirements : PhysicalPropertySet) :
    PhysOp → Except DerivError (List Alternative)
  | .hashJoin j => visitPhysicalHashJoin env requirements j
  | .hashAggregate a => .ok (visitPhysicalHashAggregate env requirements a)
  | .olapScan s => .ok (visitPhysicalOlapScan env requirements s)
  | .topN t => .ok (visitPhysicalTopN requirements t)
  | .analytic w => .ok (visitPhysicalAnalytic requirements w)
  | .setOperation .unionOp childLimits => .ok (visitPhysicalUnion requirements childLimits)
  | .setOperation .exceptOp childLimits => .ok (visitPhysicalExcept requirements childLimits)
  | .setOperation .intersectOp childLimits => .ok (visitPhysicalIntersect requirements childLimits)
  | .valuesOp => .ok (visitPhysicalValues requirements)
  | .projectOp => .ok (visitPhysicalProject requirements)
  | .filterOp => .ok (visitPhysicalFilter requirements)
  | .repeatOp => .ok (visitPhysicalRepeat requirements)
  | .tableFunctionOp => .ok (visitPhysicalTableFunction requirements)
  | .assertOneRow => .ok (visitPhysicalAssertOneRow requirements)
  | .hiveScan => .ok (visitPhysicalHiveScan requirements)
  | .schemaScan => .ok (visitPhysicalSchemaScan requirements)
  | .mysqlScan => .ok (visitPhysicalMysqlScan requirements)
  | .esScan => .ok (visitPhysicalEsScan requirements)

/-! ### Basic lemmas about the property model -/

lemma getRequiredLocalDesc_eq_some {requirements : PhysicalPropertySet} {d : HashDistributionDesc}
    (h : getRequiredLocalDesc requirements = some d) :
    requirements.dist = .hashDist d ∧ d.sourceType = .localSrc := by
  unfold getRequiredLocalDesc at h
  split at h
  case h_1 desc heq =>
    split at h
    · exact ⟨by rw [heq]; cases h; rfl, by cases h; assumption⟩
    · cases h
  case h_2 => cases h

lemma containsAll_refl (l : List Nat) : containsAll l l = true := by
  simp [containsAll, List.all_eq_true]

lemma distributeRequirements_sort (requirements : PhysicalPropertySet) :
    (distributeRequirements requirements).sort = [] := rfl

/-! ### Shape lemmas for the local-requirement filtering of the join rule -/

lemma joinLocalFilterLeft_eq_some {requirements : PhysicalPropertySet}
    {requireDesc : HashDistributionDesc} {p alt : Alternative}
    (h : joinLocalFilterLeft requirements requireDesc p = some alt) :
    alt = (distributeRequirements requirements,
            [distributeRequirements requirements, p.2.getD 1 PhysicalPropertySet.empty]) ∨
      (alt = (distributeRequirements requirements, p.2) ∧
        ∃ d : HashDistributionDesc,
          (p.2.getD 0 PhysicalPropertySet.empty).dist = .hashDist d ∧
          d.sourceType = .localSrc ∧ containsAll requireDesc.columns d.columns = true) := by
  unfold joinLocalFilterLeft at h
  split at h
  · left; cases h; rfl
  · split at h
    case h_1 d heq =>
      split at h
      case isTrue hc => right; cases h; exact ⟨rfl, d, heq, hc.1, hc.2⟩
      case isFalse => cases h
    case h_2 => cases h

lemma joinLocalFilterRight_eq_some {requirements : PhysicalPropertySet}
    {requireDesc : HashDistributionDesc} {p alt : Alternative}
    (h : joinLocalFilterRight requirements requireDesc p = some alt) :
    alt = (distributeRequirements requirements, p.2) ∧
      ∃ d : HashDistributionDesc,
        (p.2.getD 1 PhysicalPropertySet.empty).dist = .hashDist d ∧
        d.sourceType = .localSrc ∧ containsAll requireDesc.columns d.columns = true := by
  unfold joinLocalFilterRight at h
  split at h
  case h_1 d heq =>
    split at h
    case isTrue hc => cases h; exact ⟨rfl, d, heq, hc.1, hc.2⟩
    case isFalse => cases h
  case h_2 => cases h

/-- Every alternative surviving `visitJoinRequirements` either is one of the
input alternatives unchanged (no active local requirement) or carries the
requirement's distribution as output, with children taken from an input
alternative (possibly with the left child promoted from `Any`). -/
lemma mem_visitJoinRequirements {requirements : PhysicalPropertySet}
    {leftChildColumns rightChildColumns : List Nat} {props : List Alternative}
    {alt : Alternative}
    (h : alt ∈ visitJoinRequirements requirements leftChildColumns rightChildColumns props) :
    alt ∈ props ∨
      ∃ p ∈ props,
        alt = (distributeRequirements requirements,
                [distributeRequirements requirements, p.2.getD 1 PhysicalPropertySet.empty]) ∨
        alt = (distributeRequirements requirements, p.2) := by
  unfold visitJoinRequirements at h
  split at h
  case h_1 => exact Or.inl h
  case h_2 requireDesc hreq =>
    split at h
    · simp at h
    · split at h
      · right
        rcases List.mem_filterMap.mp h with ⟨p, hp, hsome⟩
        rcases joinLocalFilterLeft_eq_some hsome with h1 | ⟨h1, _⟩
        · exact ⟨p, hp, Or.inl h1⟩
        · exact ⟨p, hp, Or.inr h1⟩
      · right
        rcases List.mem_filterMap.mp h with ⟨p, hp, hsome⟩
        exact ⟨p, hp, Or.inr (joinLocalFilterRight_eq_some hsome).1⟩

/-- Shape of a successful colocate alternative: no output requirement and
two `Hash(LOCAL)` child requirements without sort. -/
lemma tryColocate_ok_some {env : Env} {lsc rsc : List Nat} {p : Alternative}
    (h : tryColocate env lsc rsc = .ok (some p)) :
    ∃ lcols rcols, p = (PhysicalPropertySet.empty,
      [{ dist := .hashDist { columns := lcols, sourceType := .localSrc }, sort := [] },
       { dist := .hashDist { columns := rcols, sourceType := .localSrc }, sort := [] }]) := by
  unfold tryColocate at h
  split at h
  · cases h
  · split at h
    case h_1 => cases h
    case h_2 left hleft =>
      split at h
      case h_1 => cases h
      case h_2 right hright =>
        split at h
        · split at h
          · cases h
          · cases h
            exact ⟨lsc, rsc, rfl⟩
        · split at h
          · cases h
          · split at h
            · cases h
            · split at h
              · cases h
              · split at h
                · cases h
                · split at h
                  · cases h
                  · split at h
                    · cases h
                    · cases h
                      exact ⟨left.bucketColumns, right.bucketColumns, rfl⟩

/-- Shape of a successful bucket-shuffle alternative: no output requirement,
a `Hash(LOCAL)` left child and a `Hash(SHUFFLE_JOIN)` right child, without
sort. -/
lemma tryBucketShuffle_eq_some {env : Env} {joinType : JoinType} {lsc rsc : List Nat}
    {p : Alternative} (h : tryBucketShuffle env joinType lsc rsc = some p) :
    ∃ lcols rcols, p = (PhysicalPropertySet.empty,
      [{ dist := .hashDist { columns := lcols, sourceType := .localSrc }, sort := [] },
       { dist := .hashDist { columns := rcols, sourceType := .shuffleJoin }, sort := [] }]) := by
  unfold tryBucketShuffle at h
  split at h
  · cases h
  · split at h
    case h_1 => cases h
    case h_2 left hleft =>
      split at h
      · cases h
      · split at h
        · cases h
        · cases h
          exact ⟨left.bucketColumns, _, rfl⟩

/-- Shape predicate of every alternative accumulated by the join rule before
the final filtering: output `EMPTY`, exactly two children, children without
sort. -/
def joinBaseAlt (p : Alternative) : Prop :=
  p.1 = PhysicalPropertySet.empty ∧ p.2.length = 2 ∧ ∀ c ∈ p.2, c.sort = []

lemma sorts_pair {a b : PhysicalPropertySet} (ha : a.sort = []) (hb : b.sort = []) :
    ∀ c ∈ [a, b], c.sort = [] := by
  intro c hc
  rcases List.mem_cons.mp hc with rfl | hc2
  · exact ha
  · rcases List.mem_cons.mp hc2 with rfl | hc3
    · exact hb
    · cases hc3

lemma joinBaseAlt_broadcastAlt : joinBaseAlt broadcastAlt :=
  ⟨rfl, rfl, sorts_pair rfl rfl⟩

lemma joinBaseAlt_shuffleJoinAlt (node : JoinInput) : joinBaseAlt (shuffleJoinAlt node) :=
  ⟨rfl, rfl, sorts_pair rfl rfl⟩

lemma joinShuffleProps_shape {node : JoinInput} {p : Alternative}
    (hp : p ∈ joinShuffleProps node) : joinBaseAlt p := by
  unfold joinShuffleProps at hp
  rcases List.mem_append.mp hp with hp1 | hp1
  · split at hp1
    · cases hp1
    · simp only [List.mem_singleton] at hp1
      subst hp1
      exact joinBaseAlt_broadcastAlt
  · simp only [List.mem_singleton] at hp1
    subst hp1
    exact joinBaseAlt_shuffleJoinAlt node

lemma joinShufflePhase_shape {env : Env} {node : JoinInput} {props : List Alternative}
    (h : joinShufflePhase env node = .ok props) : ∀ p ∈ props, joinBaseAlt p := by
  unfold joinShufflePhase at h
  split at h
  · cases h
    exact fun p hp => joinShuffleProps_shape hp
  · split at h
    · cases h
      exact fun p hp => joinShuffleProps_shape hp
    · split at h
      case h_1 => cases h
      case h_2 coloAlt hcolo =>
        cases h
        intro p hp
        rcases List.mem_append.mp hp with hp1 | hp1
        · rcases List.mem_append.mp hp1 with hp2 | hp2
          · exact joinShuffleProps_shape hp2
          · rcases coloAlt with _ | q
            · cases hp2
            · simp only [Option.toList_some, List.mem_singleton] at hp2
              subst hp2
              have hq : tryColocate env (leftOnPredicateColumns node)
                  (rightOnPredicateColumns node) = .ok (some p) := by
                split at hcolo
                · cases hcolo
                · exact hcolo
              rcases tryColocate_ok_some hq with ⟨lcols, rcols, rfl⟩
              exact ⟨rfl, rfl, sorts_pair rfl rfl⟩
        · rcases hbs : tryBucketShuffle env node.joinType
              (leftOnPredicateColumns node) (rightOnPredicateColumns node) with _ | q
          · rw [hbs] at hp1; cases hp1
          · rw [hbs] at hp1
            simp only [Option.toList_some, List.mem_singleton] at hp1
            subst hp1
            rcases tryBucketShuffle_eq_some hbs with ⟨lcols, rcols, rfl⟩
            exact ⟨rfl, rfl, sorts_pair rfl rfl⟩

lemma joinBaseProps_shape {env : Env} {node : JoinInput} {props : List Alternative}
    (h : joinBaseProps env node = .ok props) : ∀ p ∈ props, joinBaseAlt p := by
  unfold joinBaseProps at h
  split at h
  · split at h
    · cases h
      intro p hp
      simp only [List.mem_singleton] at hp
      subst hp
      exact ⟨rfl, rfl, sorts_pair rfl rfl⟩
    · cases h
      intro p hp
      simp only [List.mem_singleton] at hp
      subst hp
      exact joinBaseAlt_broadcastAlt
  · split at h
    · cases h
      intro p hp
      simp only [List.mem_singleton] at hp
      subst hp
      exact joinBaseAlt_broadcastAlt
    · split at h
      · exact joinShufflePhase_shape h
      · cases h

/-- The join rule always returns the accumulated alternatives filtered by
`visitJoinRequirements`, and every accumulated alternative has the
`joinBaseAlt` shape. -/
lemma visitPhysicalHashJoin_ok {env : Env} {requirements : PhysicalPropertySet}
    {j : JoinInput} {alts : List Alternative}
    (h : visitPhysicalHashJoin env requirements j = .ok alts) :
    ∃ props,
      alts = visitJoinRequirements requirements j.leftOutputColumns j.rightOutputColumns props ∧
      ∀ p ∈ props, joinBaseAlt p := by
  unfold visitPhysicalHashJoin at h
  split at h
  case h_1 => cases h
  case h_2 props hprops =>
    cases h
    exact ⟨props, rfl, joinBaseProps_shape hprops⟩

/-- The filtering preserves the `joinBaseAlt` facts needed by the global
invariants: two children, children without sort, and an output that is
either `EMPTY` (unfiltered) or the requirement's distribution. -/
lemma mem_visitJoinRequirements_shape {requirements : PhysicalPropertySet}
    {leftChildColumns rightChildColumns : List Nat} {props : List Alternative}
    {alt : Alternative}
    (hbase : ∀ p ∈ props, joinBaseAlt p)
    (h : alt ∈ visitJoinRequirements requirements leftChildColumns rightChildColumns props) :
    alt.2.length = 2 ∧ (∀ c ∈ alt.2, c.sort = []) ∧
      (alt.1 = PhysicalPropertySet.empty ∨ alt.1 = distributeRequirements requirements) := by
  rcases mem_visitJoinRequirements h with hmem | ⟨p, hp, hcase | hcase⟩
  · rcases hbase alt hmem with ⟨h1, h2, h3⟩
    exact ⟨h2, h3, Or.inl h1⟩
  · rcases hbase p hp with ⟨_, hlen, hsort⟩
    subst hcase
    refine ⟨rfl, ?_, Or.inr rfl⟩
    refine sorts_pair rfl ?_
    have hlt : 1 < p.2.length := by omega
    rw [List.getD_eq_getElem p.2 PhysicalPropertySet.empty hlt]
    exact hsort _ (List.getElem_mem hlt)
  · rcases hbase p hp with ⟨_, hlen, hsort⟩
    subst hcase
    exact ⟨hlen, hsort, Or.inr rfl⟩

/-! ### Shape lemmas for the aggregate rule -/

lemma sorts_single {a : PhysicalPropertySet} (ha : a.sort = []) :
    ∀ c ∈ [a], c.sort = [] := by
  intro c hc
  rcases List.mem_singleton.mp hc with rfl
  exact ha

/-- Shape predicate of every alternative accumulated by the aggregate rule
before the final filtering: one child, children without sort, and a
`Hash(LOCAL)` output only next to a `Hash(LOCAL)` child requirement. -/
def aggBaseAlt (p : Alternative) : Prop :=
  p.2.length = 1 ∧ (∀ c ∈ p.2, c.sort = []) ∧
    ∀ cols, p.1.dist = DistributionSpec.hashDist { columns := cols, sourceType := .localSrc } →
      ∃ c ∈ p.2, ∃ ccols,
        c.dist = DistributionSpec.hashDist { columns := ccols, sourceType := .localSrc }

lemma aggLocalFilter_eq_some {requirements : PhysicalPropertySet}
    {requireDesc : HashDistributionDesc} {p alt : Alternative}
    (h : aggLocalFilter requirements requireDesc p = some alt) :
    alt = (distributeRequirements requirements, [distributeRequirements requirements]) ∨
      alt = (distributeRequirements requirements, p.2) := by
  unfold aggLocalFilter at h
  split at h
  · left; cases h; rfl
  · split at h
    case h_1 =>
      split at h
      · right; cases h; rfl
      · cases h
    case h_2 => cases h

lemma visitAggregateRequirements_shape {requirements : PhysicalPropertySet}
    {props : List Alternative} {alt : Alternative}
    (hbase : ∀ p ∈ props, aggBaseAlt p)
    (h : alt ∈ visitAggregateRequirements requirements props) :
    alt.2.length = 1 ∧ (∀ c ∈ alt.2, c.sort = []) ∧
      ∀ cols, alt.1.dist = DistributionSpec.hashDist { columns := cols, sourceType := .localSrc } →
        (∃ c ∈ alt.2, ∃ ccols,
          c.dist = DistributionSpec.hashDist { columns := ccols, sourceType := .localSrc }) ∨
        alt.1.dist = requirements.dist := by
  unfold visitAggregateRequirements at h
  split at h
  · rcases hbase alt h with ⟨h1, h2, h3⟩
    exact ⟨h1, h2, fun cols hc => Or.inl (h3 cols hc)⟩
  · rcases List.mem_filterMap.mp h with ⟨p, hp, hsome⟩
    rcases hbase p hp with ⟨h1, h2, _⟩
    rcases aggLocalFilter_eq_some hsome with rfl | rfl
    · exact ⟨rfl, sorts_single rfl, fun _ _ => Or.inr rfl⟩
    · exact ⟨h1, h2, fun _ _ => Or.inr rfl⟩

/-- Every alternative of the aggregate rule has one child, children without
sort, and a `Hash(LOCAL)` output only next to a `Hash(LOCAL)` child
requirement or as the distributed requirement itself. -/
lemma visitPhysicalHashAggregate_shape {env : Env} {requirements : PhysicalPropertySet}
    {node : AggInput} {alt : Alternative}
    (h : alt ∈ visitPhysicalHashAggregate env requirements node) :
    alt.2.length = 1 ∧ (∀ c ∈ alt.2, c.sort = []) ∧
      ∀ cols, alt.1.dist = DistributionSpec.hashDist { columns := cols, sourceType := .localSrc } →
        (∃ c ∈ alt.2, ∃ ccols,
          c.dist = DistributionSpec.hashDist { columns := ccols, sourceType := .localSrc }) ∨
        alt.1.dist = requirements.dist := by
  unfold visitPhysicalHashAggregate at h
  split at h
  · refine visitAggregateRequirements_shape ?_ h
    intro p hp
    rcases List.mem_singleton.mp hp with rfl
    exact ⟨rfl, sorts_single rfl, by intro cols hc; cases hc⟩
  · split at h
    · refine visitAggregateRequirements_shape ?_ h
      intro p hp
      rcases List.mem_singleton.mp hp with rfl
      exact ⟨rfl, sorts_single rfl, by intro cols hc; cases hc⟩
    · split at h
      · split at h
        · refine visitAggregateRequirements_shape ?_ h
          intro p hp
          rcases List.mem_singleton.mp hp with rfl
          exact ⟨rfl, sorts_single rfl, by intro cols hc; cases hc⟩
        · refine visitAggregateRequirements_shape ?_ h
          intro p hp
          rcases List.mem_cons.mp hp with rfl | hp2
          · exact ⟨rfl, sorts_single rfl, by intro cols hc; cases hc⟩
          · rcases List.mem_singleton.mp hp2 with rfl
            refine ⟨rfl, sorts_single rfl, ?_⟩
            intro cols hc
            exact ⟨_, List.mem_singleton_self _, node.partitionByColumns, rfl⟩
      · refine visitAggregateRequirements_shape ?_ h
        intro p hp
        rcases List.mem_singleton.mp hp with rfl
        exact ⟨rfl, sorts_single rfl, by intro cols hc; cases hc⟩

/-! ### Lemmas locating the possible errors of the join rule -/

/-- Detects the shuffle-step `Preconditions.checkState` failure. -/
def isShuffleColumnsMismatch : Except DerivError (List Alternative) → Bool
  | .error .shuffleColumnsMismatch => true
  | _ => false

lemma tryColocate_eq_error {env : Env} {lsc rsc : List Nat} {e : DerivError}
    (h : tryColocate env lsc rsc = .error e) : e = .colocateBucketMismatch := by
  unfold tryColocate at h
  split at h
  · cases h
  · split at h
    case h_1 => cases h
    case h_2 =>
      split at h
      case h_1 => cases h
      case h_2 =>
        split at h
        · split at h
          · cases h
          · cases h
        · split at h
          · cases h
          · split at h
            · cases h
            · split at h
              · cases h; rfl
              · split at h
                · cases h
                · split at h
                  · cases h
                  · split at h
                    · cases h
                    · cases h

lemma joinShufflePhase_eq_error {env : Env} {node : JoinInput} {e : DerivError}
    (h : joinShufflePhase env node = .error e) : e = .colocateBucketMismatch := by
  unfold joinShufflePhase at h
  split at h
  · cases h
  · split at h
    · cases h
    · split at h
      case h_1 e' he' =>
        cases h
        split at he'
        · cases he'
        · exact tryColocate_eq_error he'
      case h_2 => cases h

lemma joinBaseProps_eq_error {env : Env} {node : JoinInput} {e : DerivError}
    (h : joinBaseProps env node = .error e) : e = .colocateBucketMismatch := by
  unfold joinBaseProps at h
  split at h
  · split at h
    · cases h
    · cases h
  · split at h
    · cases h
    · split at h
      · exact joinShufflePhase_eq_error h
      · exfalso
        simp [leftOnPredicateColumns, rightOnPredicateColumns] at *

/-! ### Claim C8 -/

/-- Claim C8: in the shuffle-join step the extracted left and right
equality-predicate column lists always have equal length (one column per
predicate and side, paired positionally), so the fail-fast
`Preconditions.checkState` guarding the construction of the two
`Hash(SHUFFLE_JOIN)` requirements never fires: no hash-join derivation ever
ends in the `shuffleColumnsMismatch` fatal error.  A length mismatch is
modelled as a fatal error result, never as a recovered/empty list. -/
theorem C8_shuffle_checkState_never_fires :
    ∀ (env : Env) (requirements : PhysicalPropertySet) (node : JoinInput),
      isShuffleColumnsMismatch (visitPhysicalHashJoin env requirements node) = false ∧
      (leftOnPredicateColumns node).length = (rightOnPredicateColumns node).length := by
  intro env requirements node
  constructor
  · unfold visitPhysicalHashJoin
    split
    case h_1 e he =>
      have := joinBaseProps_eq_error he
      subst this
      rfl
    case h_2 => rfl
  · simp [leftOnPredicateColumns, rightOnPredicateColumns]

/-! ### Claim C5 -/

/-- Claim C5: a hash-join derivation whose left child subtree carries a row
limit `l` (with no active local requirement) returns exactly one
alternative: right child `Replicated`, left child `Gather(limit = l)`; no
shuffle, colocate or bucket-shuffle alternative is produced. -/
theorem C5_left_limit_broadcast_only
    (env : Env) (requirements : PhysicalPropertySet) (node : JoinInput) (l : Nat)
    (hreq : getRequiredLocalDesc requirements = none)
    (hll : node.leftLimit = some l) :
    visitPhysicalHashJoin env requirements node =
      .ok [(PhysicalPropertySet.empty,
        [createLimitGatherProperty l, createPropertySetByDistribution .replicated])] := by
  unfold visitPhysicalHashJoin joinBaseProps
  simp [hll, visitJoinRequirements, hreq]

/-- Concrete witness for C5: a plain inner join whose left child carries
`LIMIT 10`. -/
def envTrivial : Env :=
  { configDisableColocateJoin := false, sessionDisableColocateJoin := false,
    newPlannerAggStage := 1, allScanOperators := [],
    isSameGroup := fun _ _ => false, getGroup := fun _ => 0,
    isGroupUnstable := fun _ => false, isColocateTable := fun _ => false }

def nodeC5 : JoinInput :=
  { joinType := .innerJoin, hint := .noHint, leftLimit := some 10, rightLimit := none,
    leftOutputColumns := [1], rightOutputColumns := [2],
    eqOnPredicates := [{ leftCol := 1, rightCol := 2, columnToColumn := true }] }

theorem C5_witness :
    visitPhysicalHashJoin envTrivial PhysicalPropertySet.empty nodeC5 =
      .ok [(PhysicalPropertySet.empty,
        [createLimitGatherProperty 10, createPropertySetByDistribution .replicated])] :=
  C5_left_limit_broadcast_only envTrivial PhysicalPropertySet.empty nodeC5 10 rfl rfl

/-! ### Claim C3 -/

/-- Counterexample input for C3: a left-outer join with no equality
conjuncts, no hint and no limits. -/
def nodeC3 : JoinInput :=
  { joinType := .leftOuterJoin, hint := .noHint, leftLimit := none, rightLimit := none,
    leftOutputColumns := [1], rightOutputColumns := [2], eqOnPredicates := [] }

/-- Counterexample to claim C3 as stated: for a join with no equality
conjuncts that is neither inner nor cross and carries no hint, the engine
does not short-circuit to broadcast; it also appends a (degenerate,
empty-column) shuffle alternative, so the returned list has two
alternatives, not exactly one. -/
theorem C3_counterexample :
    ¬ (∀ alts, visitPhysicalHashJoin envTrivial PhysicalPropertySet.empty nodeC3 = .ok alts →
        alts.length = 1 ∧
        ∀ alt ∈ alts, (alt.2.getD 1 PhysicalPropertySet.empty).dist.isReplicated = true) := by
  intro h
  have h2 := h [broadcastAlt, shuffleJoinAlt nodeC3] rfl
  exact absurd h2.1 (by decide)

/-- Claim C3 as amended: the broadcast-only short circuit holds for a cross
join, for an *inner* join with no equality conjuncts, and for an explicit
broadcast hint (for non-inner join types without equality conjuncts the
engine still appends the shuffle alternative).  Under no active local
requirement and no child limits the result is then exactly the broadcast
alternative, whose right-child requirement is `Replicated`. -/
theorem C3_amended_broadcast_short_circuit
    (env : Env) (requirements : PhysicalPropertySet) (node : JoinInput)
    (hreq : getRequiredLocalDesc requirements = none)
    (hll : node.leftLimit = none) (hrl : node.rightLimit = none)
    (hcond : node.joinType.isCrossJoin = true
      ∨ (node.joinType.isInnerJoin = true ∧ node.eqOnPredicates = [])
      ∨ node.hint = JoinHint.broadcastHint) :
    visitPhysicalHashJoin env requirements node = .ok [broadcastAlt] ∧
      (broadcastAlt.2.getD 1 PhysicalPropertySet.empty).dist.isReplicated = true := by
  refine ⟨?_, rfl⟩
  unfold visitPhysicalHashJoin joinBaseProps
  rcases hcond with hc | ⟨hi, he⟩ | hb
  · simp [hll, hrl, hc, visitJoinRequirements, hreq]
  · simp [hll, hrl, hi, he, visitJoinRequirements, hreq]
  · simp [hll, hrl, hb, visitJoinRequirements, hreq]

/-- Witness input for the amended C3: a cross join. -/
def nodeC3cross : JoinInput :=
  { joinType := .crossJoin, hint := .noHint, leftLimit := none, rightLimit := none,
    leftOutputColumns := [1], rightOutputColumns := [2], eqOnPredicates := [] }

theorem C3_witness :
    visitPhysicalHashJoin envTrivial PhysicalPropertySet.empty nodeC3cross = .ok [broadcastAlt] ∧
      (broadcastAlt.2.getD 1 PhysicalPropertySet.empty).dist.isReplicated = true :=
  C3_amended_broadcast_short_circuit envTrivial PhysicalPropertySet.empty nodeC3cross
    rfl rfl rfl (Or.inl rfl)

/-! ### Claim C4 -/

/-- Claim C4: an inner join with at least one equality conjunct, no hint,
no child limits and no active local requirement returns at least two
alternatives; the first is the broadcast alternative (right `Replicated`,
left `Any`) and the second is the shuffle alternative with
`Hash(SHUFFLE_JOIN)` on both children over positionally paired column lists
of equal length. -/
theorem C4_inner_equijoin_broadcast_then_shuffle
    (env : Env) (requirements : PhysicalPropertySet) (node : JoinInput)
    (alts : List Alternative)
    (hreq : getRequiredLocalDesc requirements = none)
    (hll : node.leftLimit = none) (hrl : node.rightLimit = none)
    (hjt : node.joinType = JoinType.innerJoin) (hh : node.hint = JoinHint.noHint)
    (hne : node.eqOnPredicates ≠ [])
    (hok : visitPhysicalHashJoin env requirements node = .ok alts) :
    ∃ rest, alts = broadcastAlt :: shuffleJoinAlt node :: rest ∧
      (leftOnPredicateColumns node).length = (rightOnPredicateColumns node).length := by
  have hne' : node.eqOnPredicates.isEmpty = false := by
    cases hep : node.eqOnPredicates
    · exact absurd hep hne
    · rfl
  have hjb : joinBaseProps env node = joinShufflePhase env node := by
    unfold joinBaseProps
    simp [hll, hrl, hjt, hh, hne', JoinType.isCrossJoin, JoinType.isInnerJoin,
      leftOnPredicateColumns, rightOnPredicateColumns]
  unfold visitPhysicalHashJoin at hok
  rw [hjb] at hok
  rcases hsp : joinShufflePhase env node with e | props
  · rw [hsp] at hok; cases hok
  · rw [hsp] at hok
    have halts : alts = props := by
      cases hok
      unfold visitJoinRequirements
      rw [hreq]
    have hjsp : joinShuffleProps node = [broadcastAlt, shuffleJoinAlt node] := by
      unfold joinShuffleProps
      simp [hjt, hh, JoinType.isRightJoin, JoinType.isFullOuterJoin]
    have hlen : (leftOnPredicateColumns node).length = (rightOnPredicateColumns node).length := by
      simp [leftOnPredicateColumns, rightOnPredicateColumns]
    unfold joinShufflePhase at hsp
    split at hsp
    case isTrue hcond => rw [hh] at hcond; cases hcond
    case isFalse =>
      split at hsp
      · cases hsp
        exact ⟨[], by rw [halts, hjsp], hlen⟩
      · split at hsp
        case h_1 => cases hsp
        case h_2 coloAlt hcolo =>
          cases hsp
          refine ⟨coloAlt.toList ++ (tryBucketShuffle env node.joinType
            (leftOnPredicateColumns node) (rightOnPredicateColumns node)).toList, ?_, hlen⟩
          rw [halts, hjsp]
          simp

/-- Witness input for C4: a plain inner equi-join. -/
def nodeC4 : JoinInput :=
  { joinType := .innerJoin, hint := .noHint, leftLimit := none, rightLimit := none,
    leftOutputColumns := [1], rightOutputColumns := [2],
    eqOnPredicates := [{ leftCol := 1, rightCol := 2, columnToColumn := true }] }

theorem C4_witness :
    ∃ rest, ([broadcastAlt, shuffleJoinAlt nodeC4] : List Alternative)
        = broadcastAlt :: shuffleJoinAlt nodeC4 :: rest ∧
      (leftOnPredicateColumns nodeC4).length = (rightOnPredicateColumns nodeC4).length :=
  C4_inner_equijoin_broadcast_then_shuffle envTrivial PhysicalPropertySet.empty nodeC4
    [broadcastAlt, shuffleJoinAlt nodeC4] rfl rfl rfl rfl rfl (by decide) rfl

/-! ### Claim C1 -/

/-- Claim C1 as amended: under a `Hash(LOCAL, R)` requirement on a join,
when `R` comes from exactly one child's output column set, every surviving
alternative's child distribution on the qualifying side is a `Hash(LOCAL)`
whose column set is *contained in* `R` (an `Any` left child is replaced by
the exact requirement, whose columns are `R` itself); when `R` comes from
both children or neither, the result is empty. -/
theorem C1_amended_local_filter_subset
    (env : Env) (requirements : PhysicalPropertySet) (node : JoinInput)
    (R : List Nat) (alts : List Alternative)
    (hreq : requirements.dist = .hashDist { columns := R, sourceType := .localSrc })
    (hok : visitPhysicalHashJoin env requirements node = .ok alts) :
    (containsAll node.leftOutputColumns R = containsAll node.rightOutputColumns R →
      alts = []) ∧
    (containsAll node.leftOutputColumns R ≠ containsAll node.rightOutputColumns R →
      ∀ alt ∈ alts, ∃ cols,
        (alt.2.getD (if containsAll node.leftOutputColumns R = true then 0 else 1)
            PhysicalPropertySet.empty).dist
          = DistributionSpec.hashDist { columns := cols, sourceType := .localSrc } ∧
        containsAll R cols = true) := by
  have hgr : getRequiredLocalDesc requirements
      = some { columns := R, sourceType := .localSrc } := by
    unfold getRequiredLocalDesc
    rw [hreq]
    rfl
  rcases visitPhysicalHashJoin_ok hok with ⟨props, rfl, hbase⟩
  unfold visitJoinRequirements
  rw [hgr]
  dsimp only
  by_cases heq : containsAll node.leftOutputColumns R = containsAll node.rightOutputColumns R
  · rw [if_pos heq]
    exact ⟨fun _ => rfl, fun hne => absurd heq hne⟩
  · rw [if_neg heq]
    refine ⟨fun h => absurd h heq, fun _ => ?_⟩
    by_cases hfl : containsAll node.leftOutputColumns R = true
    · have hidx : (if containsAll node.leftOutputColumns R = true then 0 else 1) = 0 :=
        if_pos hfl
      rw [hidx, if_pos hfl]
      intro alt hmem
      rcases List.mem_filterMap.mp hmem with ⟨p, hp, hsome⟩
      rcases joinLocalFilterLeft_eq_some hsome with rfl | ⟨rfl, d, hd0, hdsrc, hdc⟩
      · refine ⟨R, ?_, containsAll_refl R⟩
        show (distributeRequirements requirements).dist = _
        rw [distributeRequirements, hreq]
      · refine ⟨d.columns, ?_, hdc⟩
        show (p.2.getD 0 PhysicalPropertySet.empty).dist = _
        rw [hd0]
        cases d
        cases hdsrc
        rfl
    · have hidx : (if containsAll node.leftOutputColumns R = true then 0 else 1) = 1 :=
        if_neg hfl
      rw [hidx, if_neg hfl]
      intro alt hmem
      rcases List.mem_filterMap.mp hmem with ⟨p, hp, hsome⟩
      rcases joinLocalFilterRight_eq_some hsome with ⟨rfl, d, hd1, hdsrc, hdc⟩
      refine ⟨d.columns, ?_, hdc⟩
      show (p.2.getD 1 PhysicalPropertySet.empty).dist = _
      rw [hd1]
      cases d
      cases hdsrc
      rfl

/-- Environment of the C1 counterexample: colocate join disabled by config,
one scan over table 1 with output columns 1 and 2 bucketed on column 1 with
a single selected partition, so the join offers a bucket-shuffle
alternative. -/
def envC1 : Env :=
  { configDisableColocateJoin := true, sessionDisableColocateJoin := false,
    newPlannerAggStage := 1,
    allScanOperators :=
      [{ tableId := 1, outputColumns := [1, 2], bucketColumns := [1], selectedPartitionIds := [7] }],
    isSameGroup := fun _ _ => false, getGroup := fun _ => 0,
    isGroupUnstable := fun _ => false, isColocateTable := fun _ => false }

/-- Join of the C1 counterexample: an inner equi-join on the column pairs
`(1,3)` and `(2,4)`. -/
def nodeC1 : JoinInput :=
  { joinType := .innerJoin, hint := .noHint, leftLimit := none, rightLimit := none,
    leftOutputColumns := [1, 2], rightOutputColumns := [3, 4],
    eqOnPredicates := [{ leftCol := 1, rightCol := 3, columnToColumn := true },
                       { leftCol := 2, rightCol := 4, columnToColumn := true }] }

/-- Requirement of the C1 counterexample: `Hash(LOCAL, [1, 2])`, owned by
the left child only. -/
def reqC1 : PhysicalPropertySet :=
  { dist := .hashDist { columns := [1, 2], sourceType := .localSrc }, sort := [] }

/-- Counterexample to claim C1 as stated: the engine keeps the surviving
bucket-shuffle alternative because its left-child local columns `[1]` are a
*subset* of the required columns `R = [1, 2]`
(`requireDesc.getColumns().containsAll(desc.getColumns())` in the source),
not a superset as the spec sentence states: its qualifying-side (left)
child distribution is `Hash(LOCAL, [1])`, and `[1]` does not contain
`[1, 2]`. -/
theorem C1_counterexample :
    ¬ (∀ alts, visitPhysicalHashJoin envC1 reqC1 nodeC1 = .ok alts →
        ∀ alt ∈ alts,
          (alt.2.getD 0 PhysicalPropertySet.empty).dist = reqC1.dist ∨
          ∃ cols, (alt.2.getD 0 PhysicalPropertySet.empty).dist
              = DistributionSpec.hashDist { columns := cols, sourceType := .localSrc } ∧
            containsAll cols [1, 2] = true) := by
  intro h
  have h2 := h
    [(distributeRequirements reqC1,
        [distributeRequirements reqC1, createPropertySetByDistribution .replicated]),
     (distributeRequirements reqC1,
        [createPropertySetByDistribution (createLocalByByHashColumns [1]),
         createPropertySetByDistribution
           (.hashDist { columns := [3], sourceType := .shuffleJoin })])]
    rfl
    (distributeRequirements reqC1,
      [createPropertySetByDistribution (createLocalByByHashColumns [1]),
       createPropertySetByDistribution
         (.hashDist { columns := [3], sourceType := .shuffleJoin })])
    (by simp)
  rcases h2 with h3 | ⟨cols, hc, hall⟩
  · exact absurd h3 (by decide)
  · injection hc with hdesc
    injection hdesc with hcols hsrc
    subst hcols
    exact absurd hall (by decide)

theorem C1_witness :
    (containsAll nodeC1.leftOutputColumns [1, 2] = containsAll nodeC1.rightOutputColumns [1, 2] →
      ([(distributeRequirements reqC1,
          [distributeRequirements reqC1, createPropertySetByDistribution .replicated]),
        (distributeRequirements reqC1,
          [createPropertySetByDistribution (createLocalByByHashColumns [1]),
           createPropertySetByDistribution
             (.hashDist { columns := [3], sourceType := .shuffleJoin })])] : List Alternative)
        = []) ∧
    (containsAll nodeC1.leftOutputColumns [1, 2] ≠ containsAll nodeC1.rightOutputColumns [1, 2] →
      ∀ alt ∈ ([(distributeRequirements reqC1,
          [distributeRequirements reqC1, createPropertySetByDistribution .replicated]),
        (distributeRequirements reqC1,
          [createPropertySetByDistribution (createLocalByByHashColumns [1]),
           createPropertySetByDistribution
             (.hashDist { columns := [3], sourceType := .shuffleJoin })])] : List Alternative),
        ∃ cols,
          (alt.2.getD (if containsAll nodeC1.leftOutputColumns [1, 2] = true then 0 else 1)
              PhysicalPropertySet.empty).dist
            = DistributionSpec.hashDist { columns := cols, sourceType := .localSrc } ∧
          containsAll [1, 2] cols = true) :=
  C1_amended_local_filter_subset envC1 reqC1 nodeC1 [1, 2] _ rfl rfl

/-! ### Claim C9 -/

/-- Claim C9: every alternative of every operator kind has exactly as many
child required properties as the operator has children: 2 for hash join, 1
for aggregate, top-N, window, assert-one-row and the pass-through
operators, 0 for every scan and for values, and the operator arity for
union/except/intersect. -/
theorem C9_arity_preservation
    (env : Env) (requirements : PhysicalPropertySet) (op : PhysOp)
    (alts : List Alternative)
    (hok : getOutputInputProps env requirements op = .ok alts) :
    ∀ alt ∈ alts, alt.2.length = op.arity := by
  cases op with
  | hashJoin j =>
    have hok' : visitPhysicalHashJoin env requirements j = .ok alts := hok
    rcases visitPhysicalHashJoin_ok hok' with ⟨props, rfl, hbase⟩
    intro alt hmem
    exact (mem_visitJoinRequirements_shape hbase hmem).1
  | hashAggregate a =>
    cases hok
    intro alt hmem
    exact (visitPhysicalHashAggregate_shape hmem).1
  | olapScan s =>
    cases hok
    intro alt hmem
    simp only [visitPhysicalOlapScan] at hmem
    split at hmem
    · split at hmem <;>
      · rcases List.mem_singleton.mp hmem with rfl
        rfl
    · split at hmem
      · rcases List.mem_singleton.mp hmem with rfl
        rfl
      · cases hmem
  | topN t =>
    cases hok
    intro alt hmem
    simp only [visitPhysicalTopN] at hmem
    split at hmem
    · cases hmem
    · split at hmem <;>
      · rcases List.mem_singleton.mp hmem with rfl
        rfl
  | analytic w =>
    cases hok
    intro alt hmem
    simp only [visitPhysicalAnalytic] at hmem
    split at hmem
    · split at hmem
      · rcases List.mem_singleton.mp hmem with rfl
        rfl
      · cases hmem
    · split at hmem
      · rcases List.mem_singleton.mp hmem with rfl
        rfl
      · rcases List.mem_cons.mp hmem with rfl | hmem2
        · rfl
        · rcases List.mem_singleton.mp hmem2 with rfl
          rfl
  | setOperation k childLimits =>
    cases k <;>
    · cases hok
      intro alt hmem
      simp only [visitPhysicalUnion, visitPhysicalExcept, visitPhysicalIntersect,
        processSetOperationChildProperty] at hmem
      split at hmem
      · cases hmem
      · rcases List.mem_singleton.mp hmem with rfl
        simp [PhysOp.arity]
  | valuesOp =>
    cases hok
    intro alt hmem
    rcases List.mem_singleton.mp hmem with rfl
    rfl
  | projectOp =>
    cases hok
    intro alt hmem
    simp only [visitPhysicalProject] at hmem
    split at hmem
    · rcases List.mem_singleton.mp hmem with rfl
      rfl
    · rcases List.mem_cons.mp hmem with rfl | hmem2
      · rfl
      · rcases List.mem_singleton.mp hmem2 with rfl
        rfl
  | filterOp =>
    cases hok
    intro alt hmem
    simp only [visitPhysicalFilter] at hmem
    split at hmem <;>
    · rcases List.mem_singleton.mp hmem with rfl
      rfl
  | repeatOp =>
    cases hok
    intro alt hmem
    simp only [visitPhysicalRepeat] at hmem
    split at hmem <;>
    · rcases List.mem_singleton.mp hmem with rfl
      rfl
  | tableFunctionOp =>
    cases hok
    intro alt hmem
    simp only [visitPhysicalTableFunction] at hmem
    split at hmem <;>
    · rcases List.mem_singleton.mp hmem with rfl
      rfl
  | assertOneRow =>
    cases hok
    intro alt hmem
    simp only [visitPhysicalAssertOneRow] at hmem
    split at hmem
    · cases hmem
    · rcases List.mem_singleton.mp hmem with rfl
      rfl
  | hiveScan =>
    cases hok
    intro alt hmem
    simp only [visitPhysicalHiveScan] at hmem
    split at hmem
    · cases hmem
    · rcases List.mem_singleton.mp hmem with rfl
      rfl
  | schemaScan =>
    cases hok
    intro alt hmem
    simp only [visitPhysicalSchemaScan] at hmem
    split at hmem
    · cases hmem
    · rcases List.mem_singleton.mp hmem with rfl
      rfl
  | mysqlScan =>
    cases hok
    intro alt hmem
    simp only [visitPhysicalMysqlScan] at hmem
    split at hmem
    · cases hmem
    · rcases List.mem_singleton.mp hmem with rfl
      rfl
  | esScan =>
    cases hok
    intro alt hmem
    simp only [visitPhysicalEsScan] at hmem
    split at hmem
    · cases hmem
    · rcases List.mem_singleton.mp hmem with rfl
      rfl

theorem C9_witness :
    broadcastAlt.2.length = (PhysOp.hashJoin nodeC3cross).arity :=
  C9_arity_preservation envTrivial PhysicalPropertySet.empty (PhysOp.hashJoin nodeC3cross)
    [broadcastAlt] rfl broadcastAlt (List.mem_singleton_self _)

/-! ### Claim C10 -/

/-- Claim C10: for every operator kind except window/analytic, every child
required property of every alternative carries an empty sort: the parent's
required sort order is never passed on to children (in particular the
pass-through alternatives propagate only the distribution component,
`distributeRequirements` dropping the sort). -/
theorem C10_no_sort_requirement_to_children
    (env : Env) (requirements : PhysicalPropertySet) (op : PhysOp)
    (alts : List Alternative)
    (hop : op.isAnalytic = false)
    (hok : getOutputInputProps env requirements op = .ok alts) :
    ∀ alt ∈ alts, ∀ c ∈ alt.2, c.sort = [] := by
  cases op with
  | hashJoin j =>
    have hok' : visitPhysicalHashJoin env requirements j = .ok alts := hok
    rcases visitPhysicalHashJoin_ok hok' with ⟨props, rfl, hbase⟩
    intro alt hmem
    exact (mem_visitJoinRequirements_shape hbase hmem).2.1
  | hashAggregate a =>
    cases hok
    intro alt hmem
    exact (visitPhysicalHashAggregate_shape hmem).2.1
  | olapScan s =>
    cases hok
    intro alt hmem
    simp only [visitPhysicalOlapScan] at hmem
    split at hmem
    · split at hmem <;>
      · rcases List.mem_singleton.mp hmem with rfl
        intro c hc
        cases hc
    · split at hmem
      · rcases List.mem_singleton.mp hmem with rfl
        intro c hc
        cases hc
      · cases hmem
  | topN t =>
    cases hok
    intro alt hmem
    simp only [visitPhysicalTopN] at hmem
    split at hmem
    · cases hmem
    · split at hmem <;>
      · rcases List.mem_singleton.mp hmem with rfl
        exact sorts_single rfl
  | analytic w => cases hop
  | setOperation k childLimits =>
    cases k <;>
    · cases hok
      intro alt hmem
      simp only [visitPhysicalUnion, visitPhysicalExcept, visitPhysicalIntersect,
        processSetOperationChildProperty] at hmem
      split at hmem
      · cases hmem
      · rcases List.mem_singleton.mp hmem with rfl
        intro c hc
        rcases List.mem_map.mp hc with ⟨x, _, rfl⟩
        cases x <;> rfl
  | valuesOp =>
    cases hok
    intro alt hmem
    rcases List.mem_singleton.mp hmem with rfl
    intro c hc
    cases hc
  | projectOp =>
    cases hok
    intro alt hmem
    simp only [visitPhysicalProject] at hmem
    split at hmem
    · rcases List.mem_singleton.mp hmem with rfl
      exact sorts_single rfl
    · rcases List.mem_cons.mp hmem with rfl | hmem2
      · exact sorts_single rfl
      · rcases List.mem_singleton.mp hmem2 with rfl
        exact sorts_single rfl
  | filterOp =>
    cases hok
    intro alt hmem
    simp only [visitPhysicalFilter] at hmem
    split at hmem <;>
    · rcases List.mem_singleton.mp hmem with rfl
      exact sorts_single rfl
  | repeatOp =>
    cases hok
    intro alt hmem
    simp only [visitPhysicalRepeat] at hmem
    split at hmem <;>
    · rcases List.mem_singleton.mp hmem with rfl
      exact sorts_single rfl
  | tableFunctionOp =>
    cases hok
    intro alt hmem
    simp only [visitPhysicalTableFunction] at hmem
    split at hmem <;>
    · rcases List.mem_singleton.mp hmem with rfl
      exact sorts_single rfl
  | assertOneRow =>
    cases hok
    intro alt hmem
    simp only [visitPhysicalAssertOneRow] at hmem
    split at hmem
    · cases hmem
    · rcases List.mem_singleton.mp hmem with rfl
      exact sorts_single rfl
  | hiveScan =>
    cases hok
    intro alt hmem
    simp only [visitPhysicalHiveScan] at hmem
    split at hmem
    · cases hmem
    · rcases List.mem_singleton.mp hmem with rfl
      intro c hc
      cases hc
  | schemaScan =>
    cases hok
    intro alt hmem
    simp only [visitPhysicalSchemaScan] at hmem
    split at hmem
    · cases hmem
    · rcases List.mem_singleton.mp hmem with rfl
      intro c hc
      cases hc
  | mysqlScan =>
    cases hok
    intro alt hmem
    simp only [visitPhysicalMysqlScan] at hmem
    split at hmem
    · cases hmem
    · rcases List.mem_singleton.mp hmem with rfl
      intro c hc
      cases hc
  | esScan =>
    cases hok
    intro alt hmem
    simp only [visitPhysicalEsScan] at hmem
    split at hmem
    · cases hmem
    · rcases List.mem_singleton.mp hmem with rfl
      intro c hc
      cases hc

/-- A requirement carrying both a distribution and a sort order, used to
witness that the sort component is not passed to children. -/
def reqGatherSorted : PhysicalPropertySet :=
  { dist := .gather none, sort := [{ colRef := 1, isAsc := true, nullsFirst := false }] }

theorem C10_witness :
    PhysicalPropertySet.empty.sort = ([] : List Ordering) :=
  C10_no_sort_requirement_to_children envTrivial reqGatherSorted PhysOp.filterOp
    [(PhysicalPropertySet.empty, [PhysicalPropertySet.empty])] rfl rfl
    (PhysicalPropertySet.empty, [PhysicalPropertySet.empty]) (List.mem_singleton_self _)
    PhysicalPropertySet.empty (List.mem_singleton_self _)

/-! ### Claim C2 -/

/-- Claim C2 as amended: a `Hash(LOCAL)` output distribution does occur in
returned alternatives, but only in three situations: next to a
`Hash(LOCAL)` child requirement (the single-phase local aggregate/window
alternatives and the surviving local join alternatives), as the echo of the
active requirement itself (`distributeRequirements`), or as a base-table
scan's intrinsic bucket distribution. -/
theorem C2_amended_local_output_characterization
    (env : Env) (requirements : PhysicalPropertySet) (op : PhysOp)
    (alts : List Alternative)
    (hok : getOutputInputProps env requirements op = .ok alts) :
    ∀ alt ∈ alts, ∀ cols,
      alt.1.dist = DistributionSpec.hashDist { columns := cols, sourceType := .localSrc } →
      (∃ c ∈ alt.2, ∃ ccols,
        c.dist = DistributionSpec.hashDist { columns := ccols, sourceType := .localSrc }) ∨
      alt.1.dist = requirements.dist ∨
      (∃ s, op = PhysOp.olapScan s ∧ cols = s.bucketColumns) := by
  cases op with
  | hashJoin j =>
    have hok' : visitPhysicalHashJoin env requirements j = .ok alts := hok
    rcases visitPhysicalHashJoin_ok hok' with ⟨props, rfl, hbase⟩
    intro alt hmem cols hd
    rcases (mem_visitJoinRequirements_shape hbase hmem).2.2 with h1 | h1
    · rw [h1] at hd
      simp [PhysicalPropertySet.empty] at hd
    · rw [h1]
      exact Or.inr (Or.inl rfl)
  | hashAggregate a =>
    cases hok
    intro alt hmem cols hd
    rcases (visitPhysicalHashAggregate_shape hmem).2.2 cols hd with h1 | h1
    · exact Or.inl h1
    · exact Or.inr (Or.inl h1)
  | olapScan s =>
    cases hok
    intro alt hmem cols hd
    simp only [visitPhysicalOlapScan] at hmem
    split at hmem
    · split at hmem
      · rcases List.mem_singleton.mp hmem with rfl
        simp [PhysicalPropertySet.empty] at hd
      · rcases List.mem_singleton.mp hmem with rfl
        simp only [createPropertySetByDistribution] at hd
        injection hd with hdesc
        injection hdesc with hcols hsrc
        exact Or.inr (Or.inr ⟨s, rfl, hcols.symm⟩)
    · split at hmem
      · rcases List.mem_singleton.mp hmem with rfl
        exact Or.inr (Or.inl rfl)
      · cases hmem
  | topN t =>
    cases hok
    intro alt hmem cols hd
    simp only [visitPhysicalTopN] at hmem
    split at hmem
    · cases hmem
    · split at hmem <;>
      · rcases List.mem_singleton.mp hmem with rfl
        exfalso
        revert hd
        split
        · split <;> simp
        · simp [PhysicalPropertySet.empty]
  | analytic w =>
    cases hok
    intro alt hmem cols hd
    simp only [visitPhysicalAnalytic] at hmem
    split at hmem
    · split at hmem
      · rcases List.mem_singleton.mp hmem with rfl
        refine Or.inl ⟨_, List.mem_singleton_self _, w.partitionColumns, rfl⟩
      · cases hmem
    · split at hmem
      · rcases List.mem_singleton.mp hmem with rfl
        simp at hd
      · rcases List.mem_cons.mp hmem with rfl | hmem2
        · simp at hd
        · rcases List.mem_singleton.mp hmem2 with rfl
          exact Or.inl ⟨_, List.mem_singleton_self _, w.partitionColumns, rfl⟩
  | setOperation k childLimits =>
    cases k <;>
    · cases hok
      intro alt hmem cols hd
      simp only [visitPhysicalUnion, visitPhysicalExcept, visitPhysicalIntersect,
        processSetOperationChildProperty] at hmem
      split at hmem
      · cases hmem
      · rcases List.mem_singleton.mp hmem with rfl
        simp [PhysicalPropertySet.empty] at hd
  | valuesOp =>
    cases hok
    intro alt hmem cols hd
    rcases List.mem_singleton.mp hmem with rfl
    exact Or.inr (Or.inl rfl)
  | projectOp =>
    cases hok
    intro alt hmem cols hd
    simp only [visitPhysicalProject] at hmem
    split at hmem
    · rcases List.mem_singleton.mp hmem with rfl
      exact Or.inr (Or.inl rfl)
    · rcases List.mem_cons.mp hmem with rfl | hmem2
      · exact Or.inr (Or.inl rfl)
      · rcases List.mem_singleton.mp hmem2 with rfl
        simp [PhysicalPropertySet.empty] at hd
  | filterOp =>
    cases hok
    intro alt hmem cols hd
    simp only [visitPhysicalFilter] at hmem
    split at hmem
    · rcases List.mem_singleton.mp hmem with rfl
      exact Or.inr (Or.inl rfl)
    · rcases List.mem_singleton.mp hmem with rfl
      simp [PhysicalPropertySet.empty] at hd
  | repeatOp =>
    cases hok
    intro alt hmem cols hd
    simp only [visitPhysicalRepeat] at hmem
    split at hmem
    · rcases List.mem_singleton.mp hmem with rfl
      exact Or.inr (Or.inl rfl)
    · rcases List.mem_singleton.mp hmem with rfl
      simp [PhysicalPropertySet.empty] at hd
  | tableFunctionOp =>
    cases hok
    intro alt hmem cols hd
    simp only [visitPhysicalTableFunction] at hmem
    split at hmem
    · rcases List.mem_singleton.mp hmem with rfl
      exact Or.inr (Or.inl rfl)
    · rcases List.mem_singleton.mp hmem with rfl
      simp [PhysicalPropertySet.empty] at hd
  | assertOneRow =>
    cases hok
    intro alt hmem cols hd
    simp only [visitPhysicalAssertOneRow] at hmem
    split at hmem
    · cases hmem
    · rcases List.mem_singleton.mp hmem with rfl
      simp [PhysicalPropertySet.empty] at hd
  | hiveScan =>
    cases hok
    intro alt hmem cols hd
    simp only [visitPhysicalHiveScan] at hmem
    split at hmem
    · cases hmem
    · rcases List.mem_singleton.mp hmem with rfl
      simp [PhysicalPropertySet.empty] at hd
  | schemaScan =>
    cases hok
    intro alt hmem cols hd
    simp only [visitPhysicalSchemaScan] at hmem
    split at hmem
    · cases hmem
    · rcases List.mem_singleton.mp hmem with rfl
      simp [PhysicalPropertySet.empty] at hd
  | mysqlScan =>
    cases hok
    intro alt hmem cols hd
    simp only [visitPhysicalMysqlScan] at hmem
    split at hmem
    · cases hmem
    · rcases List.mem_singleton.mp hmem with rfl
      simp [PhysicalPropertySet.empty] at hd
  | esScan =>
    cases hok
    intro alt hmem cols hd
    simp only [visitPhysicalEsScan] at hmem
    split at hmem
    · cases hmem
    · rcases List.mem_singleton.mp hmem with rfl
      simp [PhysicalPropertySet.empty] at hd

/-- Aggregate input of the C2 counterexample: a global (non-split) hash
aggregate grouping on column 1 with no child limit. -/
def aggC2 : AggInput :=
  { typeIsGlobal := true, typeIsLocal := false, isSplit := false,
    partitionByColumns := [1], childLimit := none, executeInOneInstance := false }

/-- Counterexample to claim C2 as stated: the single-phase local aggregation
alternative of a grouped hash aggregate carries `Hash(LOCAL, G)` as its
*output* property even when no local requirement is active, so `Local` is
not confined to child required properties. -/
theorem C2_counterexample :
    ¬ (∀ alts,
        getOutputInputProps envTrivial PhysicalPropertySet.empty (PhysOp.hashAggregate aggC2)
          = .ok alts →
        ∀ alt ∈ alts, ∀ cols,
          alt.1.dist ≠ DistributionSpec.hashDist { columns := cols, sourceType := .localSrc }) := by
  intro h
  exact h
    [(createPropertySetByDistribution (.hashDist { columns := [1], sourceType := .shuffleAgg }),
       [createPropertySetByDistribution (.hashDist { columns := [1], sourceType := .shuffleAgg })]),
     (createPropertySetByDistribution (.hashDist { columns := [1], sourceType := .localSrc }),
       [createPropertySetByDistribution (.hashDist { columns := [1], sourceType := .localSrc })])]
    rfl
    (createPropertySetByDistribution (.hashDist { columns := [1], sourceType := .localSrc }),
      [createPropertySetByDistribution (.hashDist { columns := [1], sourceType := .localSrc })])
    (by simp)
    [1] rfl

/-- Scan of the C2 witness: table 2 bucketed on column 5 with one selected
partition. -/
def scanC2 : ScanOperator :=
  { tableId := 2, outputColumns := [5, 6], bucketColumns := [5], selectedPartitionIds := [3] }

theorem C2_witness :
    (∃ c ∈ ([] : List PhysicalPropertySet), ∃ ccols,
      c.dist = DistributionSpec.hashDist { columns := ccols, sourceType := .localSrc }) ∨
    (createPropertySetByDistribution
        (.hashDist { columns := [5], sourceType := .localSrc })).dist
      = PhysicalPropertySet.empty.dist ∨
    (∃ s, PhysOp.olapScan scanC2 = PhysOp.olapScan s ∧ [5] = s.bucketColumns) :=
  C2_amended_local_output_characterization envTrivial PhysicalPropertySet.empty
    (PhysOp.olapScan scanC2)
    [(createPropertySetByDistribution (.hashDist { columns := [5], sourceType := .localSrc }), [])]
    rfl
    (createPropertySetByDistribution (.hashDist { columns := [5], sourceType := .localSrc }), [])
    (List.mem_singleton_self _) [5] rfl

/-! ### Claim C6 -/

/-- Claim C6 as amended: a hash aggregate with an empty grouping column list
returns exactly one alternative with a full `Gather` (no limit) on output
and child, provided the aggregate is not the local stage, neither the
forced-single-stage branch (`newPlannerAggStage = 0`, single instance,
global non-split) nor the child-limit branch (child has a limit, global
non-split) applies, and no local requirement is active. -/
theorem C6_amended_scalar_aggregate_gather
    (env : Env) (requirements : PhysicalPropertySet) (node : AggInput)
    (hreq : getRequiredLocalDesc requirements = none)
    (h1 : ¬ (env.newPlannerAggStage = 0 ∧ node.executeInOneInstance = true
        ∧ node.typeIsGlobal = true ∧ node.isSplit = false))
    (h2 : ¬ (node.childLimit.isSome = true ∧ node.typeIsGlobal = true ∧ node.isSplit = false))
    (hl : node.typeIsLocal = false)
    (hg : node.partitionByColumns = []) :
    visitPhysicalHashAggregate env requirements node =
      [(createPropertySetByDistribution (.gather none),
        [createPropertySetByDistribution (.gather none)])] := by
  unfold visitPhysicalHashAggregate
  rw [if_neg h1, if_neg h2, if_pos hl, if_pos (show node.partitionByColumns.isEmpty = true by
    rw [hg]; rfl)]
  unfold visitAggregateRequirements
  rw [hreq]

/-- Witness input for the amended C6: a plain scalar global aggregate with
no child limit. -/
def aggC6w : AggInput :=
  { typeIsGlobal := true, typeIsLocal := false, isSplit := false,
    partitionByColumns := [], childLimit := none, executeInOneInstance := false }

theorem C6_witness :
    visitPhysicalHashAggregate envTrivial PhysicalPropertySet.empty aggC6w =
      [(createPropertySetByDistribution (.gather none),
        [createPropertySetByDistribution (.gather none)])] :=
  C6_amended_scalar_aggregate_gather envTrivial PhysicalPropertySet.empty aggC6w
    rfl (by decide) (by decide) rfl rfl

/-- Counterexample input for C6: a scalar global non-split aggregate whose
child carries `LIMIT 5`. -/
def aggC6cex : AggInput :=
  { typeIsGlobal := true, typeIsLocal := false, isSplit := false,
    partitionByColumns := [], childLimit := some 5, executeInOneInstance := false }

/-- Counterexample to claim C6 as stated: the child-limit facts are not
irrelevant — for a scalar global non-split aggregate over a child with a
limit the engine returns the `Gather(limit)` alternative whose output
property is `EMPTY` (`Any`), not a `Gather` on both sides. -/
theorem C6_counterexample :
    ¬ (∀ alts,
        getOutputInputProps envTrivial PhysicalPropertySet.empty (PhysOp.hashAggregate aggC6cex)
          = .ok alts →
        alts.length = 1 ∧ ∀ alt ∈ alts,
          alt.1.dist = DistributionSpec.gather none ∧
          ∀ c ∈ alt.2, c.dist = DistributionSpec.gather none) := by
  intro h
  have h2 := h [(PhysicalPropertySet.empty, [createLimitGatherProperty 5])] rfl
  have h3 := (h2.2 _ (List.mem_singleton_self _)).1
  exact absurd h3 (by decide)

/-! ### Claim C7 -/

/-- Claim C7 as amended: under an active local requirement each of project,
filter, repeat and table-function returns exactly one alternative
propagating the required distribution to output and child; with no local
requirement, *project* returns exactly two alternatives (propagate-verbatim
then fully-unconstrained) while filter, repeat and table-function return
only the single fully-unconstrained alternative. -/
theorem C7_amended_pass_through
    (env : Env) (requirements : PhysicalPropertySet) :
    ((getRequiredLocalDesc requirements).isSome = true →
      getOutputInputProps env requirements .projectOp =
        .ok [(distributeRequirements requirements, [distributeRequirements requirements])] ∧
      getOutputInputProps env requirements .filterOp =
        .ok [(distributeRequirements requirements, [distributeRequirements requirements])] ∧
      getOutputInputProps env requirements .repeatOp =
        .ok [(distributeRequirements requirements, [distributeRequirements requirements])] ∧
      getOutputInputProps env requirements .tableFunctionOp =
        .ok [(distributeRequirements requirements, [distributeRequirements requirements])]) ∧
    ((getRequiredLocalDesc requirements).isSome = false →
      getOutputInputProps env requirements .projectOp =
        .ok [(distributeRequirements requirements, [distributeRequirements requirements]),
             (PhysicalPropertySet.empty, [PhysicalPropertySet.empty])] ∧
      getOutputInputProps env requirements .filterOp =
        .ok [(PhysicalPropertySet.empty, [PhysicalPropertySet.empty])] ∧
      getOutputInputProps env requirements .repeatOp =
        .ok [(PhysicalPropertySet.empty, [PhysicalPropertySet.empty])] ∧
      getOutputInputProps env requirements .tableFunctionOp =
        .ok [(PhysicalPropertySet.empty, [PhysicalPropertySet.empty])]) := by
  constructor
  · intro hs
    refine ⟨?_, ?_, ?_, ?_⟩ <;>
      simp [getOutputInputProps, visitPhysicalProject, visitPhysicalFilter,
        visitPhysicalRepeat, visitPhysicalTableFunction, hs]
  · intro hs
    refine ⟨?_, ?_, ?_, ?_⟩ <;>
      simp [getOutputInputProps, visitPhysicalProject, visitPhysicalFilter,
        visitPhysicalRepeat, visitPhysicalTableFunction, hs]

/-- Local requirement used to witness the pass-through behavior. -/
def reqLocalC7 : PhysicalPropertySet :=
  { dist := .hashDist { columns := [1], sourceType := .localSrc }, sort := [] }

theorem C7_witness :
    getOutputInputProps envTrivial reqLocalC7 .filterOp =
      .ok [(distributeRequirements reqLocalC7, [distributeRequirements reqLocalC7])] ∧
    getOutputInputProps envTrivial PhysicalPropertySet.empty .projectOp =
      .ok [(distributeRequirements PhysicalPropertySet.empty,
            [distributeRequirements PhysicalPropertySet.empty]),
           (PhysicalPropertySet.empty, [PhysicalPropertySet.empty])] :=
  ⟨((C7_amended_pass_through envTrivial reqLocalC7).1 rfl).2.1,
   ((C7_amended_pass_through envTrivial PhysicalPropertySet.empty).2 rfl).1⟩

/-- Counterexample to claim C7 as stated: with no active local requirement
a *filter* (likewise repeat and table-function) returns a single
fully-unconstrained alternative, not the two alternatives
(propagate-verbatim and unconstrained) the claim requires of every
pass-through operator. -/
theorem C7_counterexample :
    ¬ (∀ alts,
        getOutputInputProps envTrivial
          { dist := .gather none, sort := [] } PhysOp.filterOp = .ok alts →
        alts.length = 2) := by
  intro h
  exact absurd (h [(PhysicalPropertySet.empty, [PhysicalPropertySet.empty])] rfl) (by decide)

end StarRocks
